import Mathlib

/-!
# Verification of the attention / Transformer-encoder core

Shallow embedding, over the real numbers, of the numeric core implemented in
the notebooks `Lab12_Transformers2.ipynb` and `Assignment1_6595203.ipynb`:
`scaled_dot_product`, `MultiheadAttention`, `EncoderBlock`,
`TransformerEncoder` and `PositionalEncoding`.

Tensors are embedded as `Fin`-indexed real-valued functions, so the shape of a
tensor is carried by its type.  Floating-point arithmetic is idealised as real
arithmetic; `torch.nn.functional.softmax` is embedded by its mathematical value
`exp xᵢ / ∑ⱼ exp xⱼ` (the max-subtraction performed internally by PyTorch for
numerical stability does not change this value).  An operation that raises a
Python exception (a shape error, a failed `assert`) is embedded as an
`Option`-valued function returning `none`.

The Python `scaled_dot_product` is one polymorphic function applied at two
tensor ranks: rank 2 (its unit test, and the Assignment notebook) and rank 4
(the `[Batch, Head, SeqLen, Dims]` tensors built by
`MultiheadAttention.forward`).  Expressions such as `k.shape[1]` and
`softmax(..., dim=1)` denote different axes at the two ranks, so the function
is embedded once per rank, each embedding translating the source line by line
at that rank.
-/

set_option linter.unusedVariables false

noncomputable section

open scoped BigOperators

/-- A `[B, T, D]` tensor: batch, sequence position, feature. -/
abbrev Tensor3 (B T D : ℕ) := Fin B → Fin T → Fin D → ℝ

/-- A `[B, H, T, d]` tensor: batch, head, sequence position, feature. -/
abbrev Tensor4 (B H T d : ℕ) := Fin B → Fin H → Fin T → Fin d → ℝ

/-! ## scaled_dot_product, rank-2 instantiation

Source (`Lab12_Transformers2.ipynb`, the same lines appear in
`Assignment1_6595203.ipynb` which only returns `output`):

    def scaled_dot_product(q, k, v, mask=None):
      score_matrix = q @ k.transpose(-2, -1)
      scaled_score = score_matrix / math.sqrt(k.shape[1])
      attention_weight = torch.nn.functional.softmax(scaled_score, dim= 1)
      output = attention_weight @ v
      return output, attention_weight

For rank-2 `q : [Tq, dk]`, `k : [Tk, dk]`, `v : [Tk, dv]` we have
`k.shape[1] = dk` and `dim=1` is the key axis.  Note that the body never reads
`mask`.
-/

/-- `score_matrix = q @ k.transpose(-2, -1)` at rank 2. -/
def scoreMatrix2 (Tq Tk dk : ℕ) (q : Fin Tq → Fin dk → ℝ) (k : Fin Tk → Fin dk → ℝ) :
    Fin Tq → Fin Tk → ℝ :=
  fun i j => ∑ m, q i m * k j m

/-- `scaled_score = score_matrix / math.sqrt(k.shape[1])` at rank 2:
`k.shape[1] = dk`. -/
def scaledScore2 (Tq Tk dk : ℕ) (q : Fin Tq → Fin dk → ℝ) (k : Fin Tk → Fin dk → ℝ) :
    Fin Tq → Fin Tk → ℝ :=
  fun i j => scoreMatrix2 Tq Tk dk q k i j / Real.sqrt dk

/-- `attention_weight = softmax(scaled_score, dim=1)` at rank 2: axis 1 of a
`[Tq, Tk]` tensor is the key axis. -/
def attentionWeight2 (Tq Tk dk : ℕ) (q : Fin Tq → Fin dk → ℝ) (k : Fin Tk → Fin dk → ℝ) :
    Fin Tq → Fin Tk → ℝ :=
  fun i j =>
    Real.exp (scaledScore2 Tq Tk dk q k i j) / ∑ j', Real.exp (scaledScore2 Tq Tk dk q k i j')

/-- `scaled_dot_product` at rank 2, returning `(output, attention_weight)`.
The `mask` argument is accepted, as in the source, and — as in the source —
never used. -/
def scaled_dot_product2 (Tq Tk dk : ℕ) (q : Fin Tq → Fin dk → ℝ) (k : Fin Tk → Fin dk → ℝ)
    (v : Fin Tk → Fin dk → ℝ) (mask : Option (Fin Tq → Fin Tk → Bool)) :
    (Fin Tq → Fin dk → ℝ) × (Fin Tq → Fin Tk → ℝ) :=
  (fun i m => ∑ j, attentionWeight2 Tq Tk dk q k i j * v j m,
   attentionWeight2 Tq Tk dk q k)

/-! ## scaled_dot_product, rank-4 instantiation

For the `[B, H, T, d]` tensors built inside `MultiheadAttention.forward`:
`q @ k.transpose(-2, -1)` is a batched matrix product over the last two axes,
`k.shape[1] = H` (the head count, not the feature size `d`), and `dim=1` of the
`[B, H, Tq, Tk]` score tensor is the head axis (not the key axis).
-/

/-- `score_matrix = q @ k.transpose(-2, -1)` at rank 4. -/
def scoreMatrix4 (B H Tq Tk d : ℕ) (q : Tensor4 B H Tq d) (k : Tensor4 B H Tk d) :
    Fin B → Fin H → Fin Tq → Fin Tk → ℝ :=
  fun b h i j => ∑ m, q b h i m * k b h j m

/-- `scaled_score = score_matrix / math.sqrt(k.shape[1])` at rank 4: for
`k : [B, H, Tk, d]`, `k.shape[1] = H`. -/
def scaledScore4 (B H Tq Tk d : ℕ) (q : Tensor4 B H Tq d) (k : Tensor4 B H Tk d) :
    Fin B → Fin H → Fin Tq → Fin Tk → ℝ :=
  fun b h i j => scoreMatrix4 B H Tq Tk d q k b h i j / Real.sqrt H

/-- `attention_weight = softmax(scaled_score, dim=1)` at rank 4: axis 1 of the
`[B, H, Tq, Tk]` score tensor is the head axis, so the normalisation runs over
heads. -/
def attentionWeight4 (B H Tq Tk d : ℕ) (q : Tensor4 B H Tq d) (k : Tensor4 B H Tk d) :
    Fin B → Fin H → Fin Tq → Fin Tk → ℝ :=
  fun b h i j =>
    Real.exp (scaledScore4 B H Tq Tk d q k b h i j) /
      ∑ h', Real.exp (scaledScore4 B H Tq Tk d q k b h' i j)

/-- `scaled_dot_product` at rank 4, returning `(output, attention_weight)`.
The `mask` argument is accepted, as in the source, and never used. -/
def scaled_dot_product4 (B H Tq Tk d dv : ℕ) (q : Tensor4 B H Tq d) (k : Tensor4 B H Tk d)
    (v : Tensor4 B H Tk dv) (mask : Option (Fin Tq → Fin Tk → Bool)) :
    Tensor4 B H Tq dv × (Fin B → Fin H → Fin Tq → Fin Tk → ℝ) :=
  (fun b h i m => ∑ j, attentionWeight4 B H Tq Tk d q k b h i j * v b h j m,
   attentionWeight4 B H Tq Tk d q k)

end

/-! ## MultiheadAttention

Source (`Lab12_Transformers2.ipynb`):

    class MultiheadAttention(nn.Module):
        def __init__(self, input_dim, embed_dim, num_heads):
            super().__init__()
            assert embed_dim % num_heads == 0, "..."
            self.embed_dim = embed_dim
            self.num_heads = num_heads
            self.head_dim = embed_dim // num_heads
            self.qkv_proj = nn.Linear(input_dim, 3 * embed_dim)
            self.o_proj = nn.Linear(embed_dim, embed_dim)
            ...
        def forward(self, x, mask=None, return_attention=False):
            batch_size, seq_length, embed_dim = x.size()
            qkv = self.qkv_proj(x)
            qkv = qkv.reshape(batch_size, seq_length, self.num_heads, 3 * self.head_dim)
            qkv = qkv.permute(0, 2, 1, 3)  # [Batch, Head, SeqLen, Dims]
            q, k, v = qkv.chunk(3, dim=-1)
            values, attention = scaled_dot_product(q, k, v, mask=mask)
            values = values.permute(0, 2, 1, 3)  # [Batch, SeqLen, Head, Dims]
            values = values.reshape(batch_size, seq_length, embed_dim)
            o = self.o_proj(values)
            if return_attention: return o, attention
            else: return o

Note that in `forward` the local name `embed_dim` is rebound to `x.size(2)`,
the last dimension `D` of the input, shadowing the configured `self.embed_dim`.
-/

/-- The configuration stored by `MultiheadAttention.__init__`. -/
structure MHAConfig where
  input_dim : ℕ
  embed_dim : ℕ
  num_heads : ℕ
  head_dim : ℕ

/-- `MultiheadAttention.__init__`.  Returns `none` when construction raises:
`embed_dim % num_heads` raises `ZeroDivisionError` for `num_heads = 0`, and the
`assert embed_dim % num_heads == 0` raises `AssertionError` for a non-dividing
head count.  On success `head_dim = embed_dim // num_heads` is stored. -/
def mhaInit (input_dim embed_dim num_heads : ℕ) : Option MHAConfig :=
  if 1 ≤ num_heads ∧ embed_dim % num_heads = 0 then
    some ⟨input_dim, embed_dim, num_heads, embed_dim / num_heads⟩
  else none

noncomputable section

/-- The learned parameters of a `MultiheadAttention` with `input_dim = D` and
`embed_dim = E`: `qkv_proj = nn.Linear(D, 3*E)` and `o_proj = nn.Linear(E, E)`,
each held as (weight, bias) with `nn.Linear` computing `y_e = b_e + ∑_m W[e,m] x_m`. -/
structure MHAParams (D E : ℕ) where
  wQkv : Fin (3 * E) → Fin D → ℝ
  bQkv : Fin (3 * E) → ℝ
  wO : Fin E → Fin E → ℝ
  bO : Fin E → ℝ

/-- `qkv = self.qkv_proj(x)`: the affine map of `nn.Linear(D, 3*E)` applied to
every batch element and sequence position. -/
def mhaQkv (B T D E : ℕ) (p : MHAParams D E) (x : Tensor3 B T D) :
    Fin B → Fin T → Fin (3 * E) → ℝ :=
  fun b t e => p.bQkv e + ∑ m, p.wQkv e m * x b t m

/-- `qkv.reshape(B, T, H, 3*head_dim)`, `qkv.permute(0, 2, 1, 3)` and
`q, k, v = qkv.chunk(3, dim=-1)` in one step, where `head_dim = E / H`: chunk
`c` (`c = 0, 1, 2` for `q, k, v`) of head `h` reads the flat feature index
`h * (3 * (E/H)) + c * (E/H) + j`.  The hypothesis `hHE` is the element-count
condition under which the `reshape` succeeds. -/
def mhaChunk (B T E H : ℕ) (hHE : H * (E / H) = E)
    (qkv : Fin B → Fin T → Fin (3 * E) → ℝ) (c : Fin 3) : Tensor4 B H T (E / H) :=
  fun b h t j =>
    qkv b t ⟨h.val * (3 * (E / H)) + c.val * (E / H) + j.val, by
      have hcj : c.val * (E / H) + j.val < 3 * (E / H) := by
        have hc2 : c.val * (E / H) ≤ 2 * (E / H) :=
          Nat.mul_le_mul_right _ (Nat.lt_succ_iff.mp c.isLt)
        have hj3 : 2 * (E / H) + j.val < 3 * (E / H) := by
          calc 2 * (E / H) + j.val < 2 * (E / H) + (E / H) := Nat.add_lt_add_left j.isLt _
            _ = 3 * (E / H) := by ring
        exact lt_of_le_of_lt (Nat.add_le_add_right hc2 _) hj3
      calc h.val * (3 * (E / H)) + c.val * (E / H) + j.val
          = h.val * (3 * (E / H)) + (c.val * (E / H) + j.val) := by ring
        _ < h.val * (3 * (E / H)) + 3 * (E / H) := Nat.add_lt_add_left hcj _
        _ = (h.val + 1) * (3 * (E / H)) := by ring
        _ ≤ H * (3 * (E / H)) := Nat.mul_le_mul_right _ h.isLt
        _ = 3 * (H * (E / H)) := by ring
        _ = 3 * E := by rw [hHE]⟩

/-- `values.permute(0, 2, 1, 3)` followed by
`values.reshape(batch_size, seq_length, ...)`: the flat feature index `m`
recovers head `m / head_dim` and within-head feature `m % head_dim`. -/
def mhaCombine (B T E H : ℕ) (hHE : H * (E / H) = E)
    (values : Tensor4 B H T (E / H)) : Tensor3 B T E :=
  fun b t m =>
    have hd0 : 0 < E / H := by
      rcases Nat.eq_zero_or_pos (E / H) with h0 | h0
      · exfalso
        have hE : E = 0 := by rw [← hHE, h0, Nat.mul_zero]
        have hm := m.isLt
        omega
      · exact h0
    values b ⟨m.val / (E / H), by
        rw [Nat.div_lt_iff_lt_mul hd0]
        exact lt_of_lt_of_eq m.isLt hHE.symm⟩
      t ⟨m.val % (E / H), Nat.mod_lt _ hd0⟩

/-- The output `o = self.o_proj(values)` of `MultiheadAttention.forward` in the
successful case `D = E`: the composition of `mhaQkv`, `mhaChunk`, the rank-4
`scaled_dot_product`, `mhaCombine` and the final `nn.Linear(E, E)`. -/
def mhaO (B T E H : ℕ) (hHE : H * (E / H) = E) (p : MHAParams E E)
    (x : Tensor3 B T E) (mask : Option (Fin T → Fin T → Bool)) : Tensor3 B T E :=
  fun b t e => p.bO e + ∑ m, p.wO e m *
    mhaCombine B T E H hHE
      ((scaled_dot_product4 B H T T (E / H) (E / H)
          (mhaChunk B T E H hHE (mhaQkv B T E E p x) 0)
          (mhaChunk B T E H hHE (mhaQkv B T E E p x) 1)
          (mhaChunk B T E H hHE (mhaQkv B T E E p x) 2) mask).1) b t m

/-- The `attention` tensor returned by `MultiheadAttention.forward` with
`return_attention=True`, in the successful case `D = E`. -/
def mhaA (B T E H : ℕ) (hHE : H * (E / H) = E) (p : MHAParams E E)
    (x : Tensor3 B T E) (mask : Option (Fin T → Fin T → Bool)) :
    Fin B → Fin H → Fin T → Fin T → ℝ :=
  (scaled_dot_product4 B H T T (E / H) (E / H)
      (mhaChunk B T E H hHE (mhaQkv B T E E p x) 0)
      (mhaChunk B T E H hHE (mhaQkv B T E E p x) 1)
      (mhaChunk B T E H hHE (mhaQkv B T E E p x) 2) mask).2

/-- `MultiheadAttention.forward` on an input `x : [B, T, D]`, as the pair
`(o, attention)` (the source returns `o` alone or the pair according to
`return_attention`; both are projections of this value).  The first guard is
the element-count condition of `qkv.reshape(B, T, H, 3*head_dim)`.  The local
`embed_dim` of the source is `D`, the last dimension of `x`, so
`values.reshape(batch_size, seq_length, embed_dim)` needs `H * head_dim = D`
and the `o_proj` matrix multiplication needs `D = E`; under the first guard
both reduce to `D = E`, and `forward` raises a shape error otherwise. -/
def mhaForward (B T D E H : ℕ) (p : MHAParams D E) (x : Tensor3 B T D)
    (mask : Option (Fin T → Fin T → Bool)) :
    Option (Tensor3 B T E × (Fin B → Fin H → Fin T → Fin T → ℝ)) :=
  if h1 : H * (3 * (E / H)) = 3 * E then
    if h2 : D = E then
      have hHE : H * (E / H) = E := by
        have h3 : 3 * (H * (E / H)) = 3 * E := by rw [← h1]; ring
        exact Nat.eq_of_mul_eq_mul_left (by norm_num) h3
      some (mhaO B T E H hHE
              ⟨fun e m => p.wQkv e (Fin.cast h2.symm m), p.bQkv, p.wO, p.bO⟩
              (fun b t m => x b t (Fin.cast h2.symm m)) mask,
            mhaA B T E H hHE
              ⟨fun e m => p.wQkv e (Fin.cast h2.symm m), p.bQkv, p.wO, p.bO⟩
              (fun b t m => x b t (Fin.cast h2.symm m)) mask)
    else none
  else none

end

/-! ## EncoderBlock and TransformerEncoder

Source (`Lab12_Transformers2.ipynb`):

    class EncoderBlock(nn.Module):
        def __init__(self, input_dim, num_heads, dim_feedforward, dropout=0.0):
            ...
            self.self_attn = MultiheadAttention(input_dim, input_dim, num_heads)
            self.linear_net = nn.Sequential(
                nn.Linear(input_dim, dim_feedforward),
                nn.Dropout(dropout),
                nn.ReLU(inplace=True),
                nn.Linear(dim_feedforward, input_dim),
            )
            self.norm1 = nn.LayerNorm(input_dim)
            self.norm2 = nn.LayerNorm(input_dim)
            self.dropout = nn.Dropout(dropout)

        def forward(self, x, mask=None):
            attn_out = self.self_attn(x, mask=mask)
            x = x + self.dropout(attn_out)
            x = self.norm1(x)
            linear_out = self.linear_net(x)
            x = x + self.dropout(linear_out)
            x = self.norm2(x)
            return x

    class TransformerEncoder(nn.Module):
        def __init__(self, num_layers, **block_args):
            ...
            self.layers = nn.ModuleList([EncoderBlock(**block_args) for _ in range(num_layers)])
        def forward(self, x, mask=None):
            for layer in self.layers:
                x = layer(x, mask=mask)
            return x
        def get_attention_maps(self, x, mask=None):
            attention_maps = []
            for layer in self.layers:
                _, attn_map = layer.self_attn(x, mask=mask, return_attention=True)
                attention_maps.append(attn_map)
                x = layer(x)
            return attention_maps

`nn.Dropout` multiplies each activation elementwise by an independently drawn
nonnegative factor (`0` or `1/(1-p)`) in training mode and is the identity in
evaluation mode.  It is embedded by an explicit elementwise scaling tensor: an
arbitrary realised dropout factor per call site, with the all-ones tensor
`ones3` denoting inference mode.
-/

noncomputable section

/-- `nn.LayerNorm(D)` applied to one feature vector: normalise to zero mean and
unit variance across the feature axis (biased variance, `eps = 1e-5` inside the
square root, PyTorch defaults) with learned scale `g` and shift `c`. -/
def layerNorm (D : ℕ) (g c : Fin D → ℝ) (x : Fin D → ℝ) : Fin D → ℝ :=
  fun i =>
    g i * ((x i - (∑ m, x m) / D) /
      Real.sqrt ((∑ m, (x m - (∑ m', x m') / D) ^ 2) / D + 1e-5)) + c i

/-- The learned parameters of an `EncoderBlock` with `input_dim = D` and
`dim_feedforward = F`: the self-attention parameters (a `MultiheadAttention`
built with `input_dim = embed_dim = D`), the two `nn.Linear` layers of
`linear_net`, and the scale/shift pairs of `norm1` and `norm2`. -/
structure BlockParams (D F : ℕ) where
  attn : MHAParams D D
  w1 : Fin F → Fin D → ℝ
  b1 : Fin F → ℝ
  w2 : Fin D → Fin F → ℝ
  b2 : Fin D → ℝ
  g1 : Fin D → ℝ
  c1 : Fin D → ℝ
  g2 : Fin D → ℝ
  c2 : Fin D → ℝ

/-- `EncoderBlock.forward` after the self-attention value `attnOut` is known:
`norm1(x + d1 ⊙ attnOut)`, then `linear_net` (first linear, dropout `dm`, ReLU,
second linear), then `norm2(· + d2 ⊙ linear_out)`.  The tensors `d1`, `dm`,
`d2` are the realised dropout factors of the three `nn.Dropout` applications in
source order. -/
def blockTail (B T D F : ℕ) (p : BlockParams D F) (x attnOut : Tensor3 B T D)
    (d1 : Tensor3 B T D) (dm : Tensor3 B T F) (d2 : Tensor3 B T D) : Tensor3 B T D :=
  fun b t =>
    layerNorm D p.g2 p.c2 (fun i =>
      layerNorm D p.g1 p.c1 (fun i1 => x b t i1 + d1 b t i1 * attnOut b t i1) i
      + d2 b t i *
        (p.b2 i + ∑ f, p.w2 i f *
          max (dm b t f * (p.b1 f + ∑ m, p.w1 f m *
            layerNorm D p.g1 p.c1 (fun i2 => x b t i2 + d1 b t i2 * attnOut b t i2) m)) 0))

/-- `EncoderBlock.forward`: `attn_out = self.self_attn(x, mask=mask)` (which
raises a shape error iff the reshape inside `MultiheadAttention.forward`
does, hence the `Option`), followed by `blockTail`. -/
def blockForward (B T D F H : ℕ) (p : BlockParams D F) (x : Tensor3 B T D)
    (mask : Option (Fin T → Fin T → Bool))
    (d1 : Tensor3 B T D) (dm : Tensor3 B T F) (d2 : Tensor3 B T D) :
    Option (Tensor3 B T D) :=
  (mhaForward B T D D H p.attn x mask).map fun r => blockTail B T D F p x r.1 d1 dm d2

/-- The value `EncoderBlock.forward` computes in the successful case, where
`num_heads` divides `input_dim` (guaranteed by the assert of the
`MultiheadAttention` the block builds with `input_dim = embed_dim = D`). -/
def blockPure (B T D F H : ℕ) (hH : H ∣ D) (p : BlockParams D F) (x : Tensor3 B T D)
    (mask : Option (Fin T → Fin T → Bool))
    (d1 : Tensor3 B T D) (dm : Tensor3 B T F) (d2 : Tensor3 B T D) : Tensor3 B T D :=
  blockTail B T D F p x
    (mhaO B T D H (Nat.mul_div_cancel' hH) p.attn x mask) d1 dm d2

/-- The two post-norm residual steps exactly as the specification states them:
`x₁ = Normalize(x + Dropout(attn_out))` with `attn_out` the multi-head
attention of `x`, then `ff_out = Linear₂(Dropout(ReLU(Linear₁(x₁))))` followed
by `Normalize(x₁ + Dropout(ff_out))`.  This definition follows the
specification's wording (dropout applied after the ReLU inside the
feed-forward network) and is to be compared with `blockForward`, which follows
the source (dropout applied before the ReLU). -/
def specEncoderBlock (B T D F H : ℕ) (hH : H ∣ D) (p : BlockParams D F)
    (x : Tensor3 B T D) (mask : Option (Fin T → Fin T → Bool))
    (d1 : Tensor3 B T D) (dm : Tensor3 B T F) (d2 : Tensor3 B T D) : Tensor3 B T D :=
  fun b t =>
    layerNorm D p.g2 p.c2 (fun i =>
      layerNorm D p.g1 p.c1 (fun i1 => x b t i1 + d1 b t i1 *
        mhaO B T D H (Nat.mul_div_cancel' hH) p.attn x mask b t i1) i
      + d2 b t i *
        (p.b2 i + ∑ f, p.w2 i f *
          (dm b t f * max (p.b1 f + ∑ m, p.w1 f m *
            layerNorm D p.g1 p.c1 (fun i2 => x b t i2 + d1 b t i2 *
              mhaO B T D H (Nat.mul_div_cancel' hH) p.attn x mask b t i2) m) 0)))

/-- The all-ones `[B, T, D]` tensor: the realised dropout factors of
`nn.Dropout` in evaluation (inference) mode. -/
def ones3 (B T D : ℕ) : Tensor3 B T D := fun _ _ _ => 1

/-- The all-zeros `[B, T, D]` tensor, used as a concrete input in witnesses. -/
def zero3 (B T D : ℕ) : Tensor3 B T D := fun _ _ _ => 0

/-- Zero-initialised `MultiheadAttention` parameters, used in witnesses. -/
def zeroMHA (D E : ℕ) : MHAParams D E :=
  ⟨fun _ _ => 0, fun _ => 0, fun _ _ => 0, fun _ => 0⟩

/-- Zero-initialised `EncoderBlock` parameters, used in witnesses. -/
def zeroBlock (D F : ℕ) : BlockParams D F :=
  ⟨zeroMHA D D, fun _ _ => 0, fun _ => 0, fun _ _ => 0, fun _ => 0,
   fun _ => 0, fun _ => 0, fun _ => 0, fun _ => 0⟩

/-- `TransformerEncoder.forward` in inference mode: the loop
`for layer in self.layers: x = layer(x, mask=mask)`. -/
def encoderForward (B T D F H : ℕ) :
    List (BlockParams D F) → Tensor3 B T D → Option (Fin T → Fin T → Bool) →
    Option (Tensor3 B T D)
  | [], x, _ => some x
  | p :: ps, x, mask =>
    (blockForward B T D F H p x mask (ones3 B T D) (ones3 B T F) (ones3 B T D)).bind
      fun x1 => encoderForward B T D F H ps x1 mask

/-- `TransformerEncoder.get_attention_maps` in inference mode: per layer,
`_, attn_map = layer.self_attn(x, mask=mask, return_attention=True)` collects
the attention tensor at the current `x`, then `x = layer(x)` advances `x` —
note the source omits the mask in this advancing call. -/
def getAttentionMaps (B T D F H : ℕ) :
    List (BlockParams D F) → Tensor3 B T D → Option (Fin T → Fin T → Bool) →
    Option (List (Fin B → Fin H → Fin T → Fin T → ℝ))
  | [], _, _ => some []
  | p :: ps, x, mask =>
    (mhaForward B T D D H p.attn x mask).bind fun r =>
      (blockForward B T D F H p x none (ones3 B T D) (ones3 B T F) (ones3 B T D)).bind
        fun x1 =>
          (getAttentionMaps B T D F H ps x1 mask).map fun maps => r.2 :: maps

/-- One attention-weight tensor per block, each computed by that block's
self-attention at the intermediate input the main `forward` pass reaches (the
`x` advanced by `blockPure` with the same mask and inference-mode dropout). -/
def encMaps (B T D F H : ℕ) (hH : H ∣ D) :
    List (BlockParams D F) → Tensor3 B T D → Option (Fin T → Fin T → Bool) →
    List (Fin B → Fin H → Fin T → Fin T → ℝ)
  | [], _, _ => []
  | p :: ps, x, mask =>
    mhaA B T D H (Nat.mul_div_cancel' hH) p.attn x mask ::
      encMaps B T D F H hH ps
        (blockPure B T D F H hH p x mask (ones3 B T D) (ones3 B T F) (ones3 B T D)) mask

end

/-! ## PositionalEncoding

Source (`Lab12_Transformers2.ipynb`):

    class PositionalEncoding(nn.Module):
        def __init__(self, d_model, max_len=5000):
            ...
            pe = torch.zeros(max_len, d_model)
            position = torch.arange(0, max_len, dtype=torch.float).unsqueeze(1)
            div_term = torch.exp(torch.arange(0, d_model, 2).float() * (-math.log(10000.0) / d_model))
            pe[:, 0::2] = torch.sin(position * div_term)
            pe[:, 1::2] = torch.cos(position * div_term)
            pe = pe.unsqueeze(0)
            self.register_buffer("pe", pe, persistent=False)

        def forward(self, x):
            x = x + self.pe[:, : x.size(1)]
            return x
-/

noncomputable section

/-- One entry of the positional-encoding table: column `i` of row `pos` is
`sin(pos * div_term[i/2])` for even `i` and `cos(pos * div_term[(i-1)/2])` for
odd `i`, where `div_term[m] = exp(2m * (-log 10000 / d))`; in both cases the
relevant `2m` equals `2 * (i / 2)`. -/
def peEntry (d pos i : ℕ) : ℝ :=
  if i % 2 = 0 then
    Real.sin ((pos : ℝ) * Real.exp ((2 * (i / 2) : ℕ) * (-Real.log 10000 / (d : ℝ))))
  else
    Real.cos ((pos : ℝ) * Real.exp ((2 * (i / 2) : ℕ) * (-Real.log 10000 / (d : ℝ))))

/-- The `[max_len, d]` positional-encoding buffer `pe` (before `unsqueeze`). -/
def peTableFn (d maxLen : ℕ) : Fin maxLen → Fin d → ℝ :=
  fun pos i => peEntry d pos.val i.val

/-- `PositionalEncoding.__init__`.  Construction raises for `d_model = 0`
(`-math.log(10000.0) / d_model` divides by zero) and for odd `d_model` (the
assignment `pe[:, 1::2] = torch.cos(position * div_term)` writes a
`[max_len, ⌈d/2⌉]` tensor into a `[max_len, ⌊d/2⌋]` slice); otherwise the
buffer `peTableFn` is stored. -/
def peInit (d maxLen : ℕ) : Option (Fin maxLen → Fin d → ℝ) :=
  if 0 < d ∧ d % 2 = 0 then some (peTableFn d maxLen) else none

/-- `PositionalEncoding.forward`: `x + self.pe[:, : x.size(1)]`.  The slice
`self.pe[:, :T]` has sequence length `L = min T maxLen`; adding it to the
`[B, T, d]` input follows PyTorch broadcasting on the sequence axis — the
sizes `T` and `L` are compatible when they are equal or either is 1 (a size-1
axis is stretched to the other size, including to size 0), and the result has
the broadcast sequence length, so it is tagged with its length.  The three
success branches: `L = T` (the slice covers the first `T` rows, result length
`T`); `L = 1` (the single table row is stretched along the whole sequence
axis, result length `T`); `T = 1` with `L ≠ 1` (the single input row is
stretched to the slice's length — reachable only for `maxLen = 0`, where
`L = 0` and the result is the empty `[B, 0, d]` tensor).  Any other pair of
lengths raises a size-mismatch error. -/
def peForward (B T d maxLen : ℕ) (pe : Fin maxLen → Fin d → ℝ) (x : Tensor3 B T d) :
    Option ((L : ℕ) × Tensor3 B L d) :=
  if h : min T maxLen = T then
    some ⟨T, fun b t i =>
      x b t i + pe ⟨t.val, lt_of_lt_of_le t.isLt (min_eq_left_iff.mp h)⟩ i⟩
  else if h1 : min T maxLen = 1 then
    some ⟨T, fun b t i =>
      x b t i + pe ⟨0, lt_of_lt_of_le Nat.zero_lt_one (h1 ▸ min_le_right T maxLen)⟩ i⟩
  else if h2 : T = 1 then
    some ⟨min T maxLen, fun b t i =>
      x b ⟨0, by omega⟩ i + pe ⟨t.val, lt_of_lt_of_le t.isLt (min_le_right T maxLen)⟩ i⟩
  else none

end

/-! ## Claims C1 to C3 -/

noncomputable section

/-- Claim C1.  The claim states that when a mask argument is present, masked
score entries are pushed to a very large negative value before the softmax, so
every excluded position ends with attention weight below `1e-6`.  The source
body of `scaled_dot_product` never reads its `mask` parameter.  At
`q = k = v = 0` (shapes `[1,1]`, `[2,1]`, `[2,1]`) with a mask marking key
position 0 of the single query excluded (the `mask == 0` convention of the
reference implementation), the weight at the excluded position is `1/2`, which
is not below `1/1000000`; moreover the entire result, output and weights, is
identical to the call without a mask. -/
theorem scaled_dot_product_mask_unused :
    (scaled_dot_product2 1 2 1 (fun _ _ => 0) (fun _ _ => 0) (fun _ _ => 0)
        (some (fun _ j => decide (j.val = 1)))).2 0 0 = 1 / 2
    ∧ ¬ ((1 : ℝ) / 2 < 1 / 1000000)
    ∧ scaled_dot_product2 1 2 1 (fun _ _ => 0) (fun _ _ => 0) (fun _ _ => 0)
        (some (fun _ j => decide (j.val = 1)))
      = scaled_dot_product2 1 2 1 (fun _ _ => 0) (fun _ _ => 0) (fun _ _ => 0) none := by
  refine ⟨?_, by norm_num, rfl⟩
  simp [scaled_dot_product2, attentionWeight2, scaledScore2, scoreMatrix2,
    Fin.sum_univ_two]

/-- Claim C2.  The claim states that, also for the batched rank-4 tensors that
`MultiheadAttention.forward` passes in, the attention-weight tensor is
normalised along the key axis, each row over key positions summing to 1 within
floating-point tolerance.  The source applies `softmax(..., dim=1)`, which on a
`[B, H, Tq, Tk]` tensor normalises along the head axis.  At
`q = k = v = 0` of shape `[1, 2, 1, 1]` (one batch, two heads, one position,
one feature, no mask) the row of weights over key positions for batch 0, head
0, query 0 sums to `1/2`, which differs from 1 by more than the stated `1e-5`
tolerance. -/
theorem scaled_dot_product_softmax_head_axis :
    (∑ j : Fin 1, (scaled_dot_product4 1 2 1 1 1 1 (fun _ _ _ _ => 0) (fun _ _ _ _ => 0)
        (fun _ _ _ _ => 0) none).2 0 0 0 j) = 1 / 2
    ∧ |(1 : ℝ) / 2 - 1| > 1 / 100000 := by
  constructor
  · simp [scaled_dot_product4, attentionWeight4, scaledScore4, scoreMatrix4,
      Fin.sum_univ_two]
  · rw [abs_of_nonpos (by norm_num)]
    norm_num

/-- Claim C3.  The claim states that the raw scores are divided by `√d_k` with
`d_k` the shared last-dimension size of `Q` and `K`, also for the rank-4
tensors produced inside `MultiheadAttention.forward`.  The source divides by
`math.sqrt(k.shape[1])`, which for a `[B, H, Tk, d]` tensor is `√H` (the head
count).  At `q = k = 1` of shape `[1, 2, 1, 1]` the raw score is 1 and the
scaled score computed by the code is `1 / √2`, whereas division by
`√d_k = √1 = 1` would leave it at 1. -/
theorem scaled_dot_product_scale_num_heads :
    scaledScore4 1 2 1 1 1 (fun _ _ _ _ => 1) (fun _ _ _ _ => 1) 0 0 0 0 = 1 / Real.sqrt 2
    ∧ (1 : ℝ) / Real.sqrt 2 ≠ 1 / Real.sqrt 1 := by
  constructor
  · simp [scaledScore4, scoreMatrix4]
  · rw [Real.sqrt_one]
    intro hc
    have h2 : Real.sqrt 2 = 1 := by
      have hpos : (0 : ℝ) < Real.sqrt 2 := Real.sqrt_pos.mpr (by norm_num)
      field_simp at hc
      exact hc.symm
    rw [Real.sqrt_eq_one] at h2
    norm_num at h2

end

/-! ## Helper lemmas for the successful paths -/

noncomputable section

/-- On an input whose last dimension equals `embed_dim = E`, with `num_heads`
dividing `E` (the construction invariant), `MultiheadAttention.forward`
succeeds and returns the pair `(mhaO, mhaA)`. -/
theorem mhaForward_eq (B T E H : ℕ) (hH : H ∣ E) (p : MHAParams E E)
    (x : Tensor3 B T E) (mask : Option (Fin T → Fin T → Bool)) :
    mhaForward B T E E H p x mask
      = some (mhaO B T E H (Nat.mul_div_cancel' hH) p x mask,
              mhaA B T E H (Nat.mul_div_cancel' hH) p x mask) := by
  have hHE : H * (E / H) = E := Nat.mul_div_cancel' hH
  have h1 : H * (3 * (E / H)) = 3 * E := by
    rw [show H * (3 * (E / H)) = 3 * (H * (E / H)) from by ring, hHE]
  unfold mhaForward
  rw [dif_pos h1, dif_pos rfl]
  rfl

/-- With `num_heads` dividing `input_dim` (the invariant of the
`MultiheadAttention` an `EncoderBlock` constructs), `EncoderBlock.forward`
succeeds and computes `blockPure`. -/
theorem blockForward_eq (B T D F H : ℕ) (hH : H ∣ D) (p : BlockParams D F)
    (x : Tensor3 B T D) (mask : Option (Fin T → Fin T → Bool))
    (d1 : Tensor3 B T D) (dm : Tensor3 B T F) (d2 : Tensor3 B T D) :
    blockForward B T D F H p x mask d1 dm d2
      = some (blockPure B T D F H hH p x mask d1 dm d2) := by
  unfold blockForward
  rw [mhaForward_eq B T D H hH p.attn x mask]
  rfl

end

/-! ## Claims C4 to C6 -/

noncomputable section

/-- Claim C4, counterexample to the claim as stated.  A `MultiheadAttention`
configured with `input_dim = 1`, `embed_dim = 2`, `num_heads = 1` (a dividing
head count) applied to a well-formed `[1, 1, input_dim]` input raises a shape
error at `values.reshape` instead of returning a `[1, 1, embed_dim]` output:
the local `embed_dim` read from `x.size()` is 1 while the attention values
hold 2 features per position. -/
theorem mha_forward_dim_mismatch_counterexample :
    mhaForward 1 1 1 2 1 (zeroMHA 1 2) (zero3 1 1 1) none
      = (none : Option (Tensor3 1 1 2 × (Fin 1 → Fin 1 → Fin 1 → Fin 1 → ℝ))) := by
  unfold mhaForward
  rw [dif_pos (by norm_num), dif_neg (by norm_num)]

/-- Claim C4, amended: provided additionally that the input's last dimension
equals the configured `embed_dim` (that is, `input_dim = embed_dim = E`),
`forward` on a well-formed `[B, T, E]` input returns an output of shape
`[B, T, embed_dim]` — the success value's type is `Tensor3 B T E` — for every
head count dividing `embed_dim`. -/
theorem mha_forward_output_shape (B T E H : ℕ) (p : MHAParams E E)
    (x : Tensor3 B T E) (mask : Option (Fin T → Fin T → Bool)) (hH : H ∣ E) :
    (mhaForward B T E E H p x mask).isSome = true := by
  rw [mhaForward_eq B T E H hH p x mask]
  rfl

/-- Witness for `mha_forward_output_shape` at `B = T = 1`, `E = H = 2`. -/
theorem mha_forward_output_shape_witness :
    ((2 : ℕ) ∣ 2) ∧
      (mhaForward 1 1 2 2 2 (zeroMHA 2 2) (zero3 1 1 2) none).isSome = true :=
  ⟨by decide, mha_forward_output_shape 1 1 2 2 (zeroMHA 2 2) (zero3 1 1 2) none (by decide)⟩

/-- Claim C5.  Whenever the input's last dimension `D` differs from the
configured `embed_dim = E`, `MultiheadAttention.forward` raises a shape error
before returning (at `values.reshape(batch_size, seq_length, embed_dim)`,
whose element count cannot match, or already at `qkv.reshape` when the head
count does not divide `E`): the embedded `forward` is `none` for every
well-formed `[B, T, D]` input, every mask and every head count. -/
theorem mha_forward_requires_embed_dim (B T D E H : ℕ) (p : MHAParams D E)
    (x : Tensor3 B T D) (mask : Option (Fin T → Fin T → Bool)) (hne : D ≠ E) :
    mhaForward B T D E H p x mask = none := by
  unfold mhaForward
  by_cases h1 : H * (3 * (E / H)) = 3 * E
  · rw [dif_pos h1, dif_neg hne]
  · rw [dif_neg h1]

/-- Witness for `mha_forward_requires_embed_dim` at `input_dim = 1`,
`embed_dim = 2`. -/
theorem mha_forward_requires_embed_dim_witness :
    (1 : ℕ) ≠ 2 ∧
      mhaForward 1 1 1 2 1 (zeroMHA 1 2) (zero3 1 1 1) none = none :=
  ⟨by decide, mha_forward_requires_embed_dim 1 1 1 2 1 (zeroMHA 1 2) (zero3 1 1 1) none
    (by decide)⟩

/-- Claim C6.  For every positive head count, `MultiheadAttention.__init__`
succeeds exactly when `num_heads` divides `embed_dim`; a non-dividing pair
fails the `assert` inside `__init__`, i.e. at construction time — `mhaInit` is
the embedding of the constructor alone, before any call — and the failure is
independent of `input_dim`. -/
theorem mha_init_divisibility (input_dim embed_dim num_heads : ℕ)
    (hpos : 1 ≤ num_heads) :
    (mhaInit input_dim embed_dim num_heads).isSome = true ↔ num_heads ∣ embed_dim := by
  unfold mhaInit
  split_ifs with h
  · simp [Nat.dvd_of_mod_eq_zero h.2]
  · simp only [Option.isSome_none, Bool.false_eq_true, false_iff]
    intro hdvd
    exact h ⟨hpos, Nat.mod_eq_zero_of_dvd hdvd⟩

/-- Witness for `mha_init_divisibility` at `input_dim = 5`, `embed_dim = 6`,
`num_heads = 2`. -/
theorem mha_init_divisibility_witness :
    (1 : ℕ) ≤ 2 ∧ ((mhaInit 5 6 2).isSome = true ↔ (2 : ℕ) ∣ 6) :=
  ⟨by decide, mha_init_divisibility 5 6 2 (by decide)⟩

end

/-! ## Claims C7 and C8 -/

noncomputable section

/-- Claim C7.  In inference mode, with a head count dividing the model
dimension (the construction invariant of every block), `TransformerEncoder`:
(i) `forward` applies its blocks sequentially, each consuming the previous
block's output — it returns the left fold of `blockPure` over the layer list;
(ii) `get_attention_maps` succeeds and returns `encMaps`: one attention-weight
tensor per block, namely the weights that block's self-attention produces at
the same intermediate input the main forward pass computes, the input list
being advanced by exactly the `blockPure` steps of `forward` with the same
mask (the source advances with `layer(x)`, omitting the mask, but the mask is
never read downstream, so the intermediate sequence coincides with
`forward`'s), and without altering the main output;
(iii) the returned list has exactly one entry per block. -/
theorem transformer_encoder_forward_and_maps (B T D F H : ℕ) (hH : H ∣ D)
    (ps : List (BlockParams D F)) (x : Tensor3 B T D)
    (mask : Option (Fin T → Fin T → Bool)) :
    encoderForward B T D F H ps x mask
        = some (ps.foldl (fun y p =>
            blockPure B T D F H hH p y mask (ones3 B T D) (ones3 B T F) (ones3 B T D)) x)
    ∧ getAttentionMaps B T D F H ps x mask = some (encMaps B T D F H hH ps x mask)
    ∧ (encMaps B T D F H hH ps x mask).length = ps.length := by
  induction ps generalizing x with
  | nil => exact ⟨rfl, rfl, rfl⟩
  | cons p ps ih =>
    obtain ⟨ih1, ih2, ih3⟩ :=
      ih (blockPure B T D F H hH p x mask (ones3 B T D) (ones3 B T F) (ones3 B T D))
    have hmaskfree :
        blockPure B T D F H hH p x none (ones3 B T D) (ones3 B T F) (ones3 B T D)
          = blockPure B T D F H hH p x mask (ones3 B T D) (ones3 B T F) (ones3 B T D) := rfl
    refine ⟨?_, ?_, ?_⟩
    · show (blockForward B T D F H p x mask (ones3 B T D) (ones3 B T F) (ones3 B T D)).bind
          (fun x1 => encoderForward B T D F H ps x1 mask) = _
      rw [blockForward_eq B T D F H hH p x mask, List.foldl_cons, Option.some_bind]
      exact ih1
    · show (mhaForward B T D D H p.attn x mask).bind _ = _
      rw [mhaForward_eq B T D H hH p.attn x mask, Option.some_bind,
          blockForward_eq B T D F H hH p x none, Option.some_bind, hmaskfree, ih2,
          Option.map_some']
      rfl
    · show (_ :: encMaps B T D F H hH ps _ mask).length = ps.length + 1
      rw [List.length_cons, ih3]

end

/-- Witness for `transformer_encoder_forward_and_maps` at one block with zero
parameters, `B = T = D = F = H = 1`, no mask. -/
theorem transformer_encoder_forward_and_maps_witness :
    ((1 : ℕ) ∣ 1) ∧
      (encoderForward 1 1 1 1 1 [zeroBlock 1 1] (zero3 1 1 1) none
          = some ([zeroBlock 1 1].foldl (fun y p =>
              blockPure 1 1 1 1 1 (one_dvd 1) p y none (ones3 1 1 1) (ones3 1 1 1)
                (ones3 1 1 1)) (zero3 1 1 1))
       ∧ getAttentionMaps 1 1 1 1 1 [zeroBlock 1 1] (zero3 1 1 1) none
           = some (encMaps 1 1 1 1 1 (one_dvd 1) [zeroBlock 1 1] (zero3 1 1 1) none)
       ∧ (encMaps 1 1 1 1 1 (one_dvd 1) [zeroBlock 1 1] (zero3 1 1 1) none).length
           = [zeroBlock 1 1].length) :=
  ⟨one_dvd 1,
   transformer_encoder_forward_and_maps 1 1 1 1 1 (one_dvd 1) [zeroBlock 1 1]
     (zero3 1 1 1) none⟩

/-- Claim C8.  In terms of realised dropout factors `d1`, `dm`, `d2` (all
nonnegative, as PyTorch dropout factors are, and all ones at inference),
`EncoderBlock.forward` computes exactly the two post-norm residual steps of
the specification — `x₁ = Normalize(x + Dropout(attn_out))` with `attn_out`
the multi-head attention of `x`, then
`ff_out = Linear₂(Dropout(ReLU(Linear₁(x₁))))` and
`Normalize(x₁ + Dropout(ff_out))` — and the result, of type `Tensor3 B T D`,
has the same `[B, T, D]` shape as the input.  (The source applies the
feed-forward dropout before the ReLU rather than after it; since the factors
are nonnegative and ReLU is positively homogeneous, the two orders give equal
values.) -/
theorem encoder_block_post_norm_steps (B T D F H : ℕ) (hH : H ∣ D)
    (p : BlockParams D F) (x : Tensor3 B T D) (mask : Option (Fin T → Fin T → Bool))
    (d1 : Tensor3 B T D) (dm : Tensor3 B T F) (d2 : Tensor3 B T D)
    (hdm : 0 ≤ dm) :
    blockForward B T D F H p x mask d1 dm d2
      = some (specEncoderBlock B T D F H hH p x mask d1 dm d2) := by
  rw [blockForward_eq B T D F H hH p x mask d1 dm d2]
  have key : ∀ (b : Fin B) (t : Fin T) (f : Fin F) (L : ℝ),
      max (dm b t f * L) 0 = dm b t f * max L 0 := by
    intro b t f L
    rw [mul_max_of_nonneg L 0 (hdm b t f), mul_zero]
  congr 1
  funext b t
  unfold blockPure blockTail specEncoderBlock
  simp only [key]

/-- Witness for `encoder_block_post_norm_steps` at one block with zero
parameters, `B = T = D = F = H = 1`, no mask, inference-mode dropout. -/
theorem encoder_block_post_norm_steps_witness :
    ((1 : ℕ) ∣ 1) ∧ (0 : Tensor3 1 1 1) ≤ ones3 1 1 1 ∧
      blockForward 1 1 1 1 1 (zeroBlock 1 1) (zero3 1 1 1) none (ones3 1 1 1)
          (ones3 1 1 1) (ones3 1 1 1)
        = some (specEncoderBlock 1 1 1 1 1 (one_dvd 1) (zeroBlock 1 1) (zero3 1 1 1) none
            (ones3 1 1 1) (ones3 1 1 1) (ones3 1 1 1)) :=
  ⟨one_dvd 1, fun _ _ _ => zero_le_one,
   encoder_block_post_norm_steps 1 1 1 1 1 (one_dvd 1) (zeroBlock 1 1) (zero3 1 1 1) none
     (ones3 1 1 1) (ones3 1 1 1) (ones3 1 1 1) (fun _ _ _ => zero_le_one)⟩

/-! ## Claims C9 and C10 -/

noncomputable section

/-- Claim C9, counterexample to the claim as stated.  A `PositionalEncoding`
with `max_len = 1` (and `d_model = 2`) applied to an input of sequence length
`T = 2 > max_len` does not raise: the sliced table `pe[:, :2]` has sequence
length `min 2 1 = 1`, which broadcasts along the sequence axis, so `forward`
succeeds (wrongly adding row 0 of the table to every position). -/
theorem pe_forward_overflow_counterexample :
    (1 : ℕ) < 2 ∧
      (peForward 1 2 2 1 (peTableFn 2 1) (zero3 1 2 2)).isSome = true := by
  refine ⟨by norm_num, ?_⟩
  unfold peForward
  rw [dif_neg (by decide), dif_pos (by decide)]
  rfl

/-- Claim C9, amended: `PositionalEncoding.forward` raises a size-mismatch
error exactly when the sequence length `T` exceeds `max_len`, `max_len ≠ 1`
and `T ≠ 1` (for `max_len = 1` the single-row sliced table broadcasts along
the sequence axis and the call wrongly succeeds; for `max_len = 0` with
`T = 1` the single input row broadcasts against the empty slice and the call
wrongly succeeds with an empty result); in particular every call with
`T ≤ max_len` succeeds. -/
theorem pe_forward_length_guard (B T d maxLen : ℕ) (x : Tensor3 B T d) :
    peForward B T d maxLen (peTableFn d maxLen) x = none
      ↔ (maxLen < T ∧ maxLen ≠ 1 ∧ T ≠ 1) := by
  unfold peForward
  split_ifs with h h1 h2
  · simp only [reduceCtorEq, false_iff, not_and, ne_eq, not_not]
    omega
  · simp only [reduceCtorEq, false_iff, not_and, ne_eq, not_not]
    omega
  · simp only [reduceCtorEq, false_iff, not_and, ne_eq, not_not]
    omega
  · simp only [true_iff, ne_eq]
    omega

end

/-- Claim C10.  For even positive `d_model`, construction stores the table
`peTableFn`; its entries satisfy `PE[pos, 2i] = sin(pos / 10000^(2i/d))` and
`PE[pos, 2i+1] = cos(pos / 10000^(2i/d))` for all `pos < max_len` and
`2i+1 < d`; and for every input of sequence length `T ≤ max_len`, `forward`
returns the input plus the first `T` rows of the table. -/
theorem pe_table_and_forward (d maxLen pos i B T : ℕ) (x : Tensor3 B T d)
    (hd : 0 < d) (he : d % 2 = 0) (hp : pos < maxLen) (hi : 2 * i + 1 < d)
    (hT : T ≤ maxLen) :
    peInit d maxLen = some (peTableFn d maxLen)
    ∧ peTableFn d maxLen ⟨pos, hp⟩ ⟨2 * i, by omega⟩
        = Real.sin ((pos : ℝ) / (10000 : ℝ) ^ (((2 * i : ℕ) : ℝ) / (d : ℝ)))
    ∧ peTableFn d maxLen ⟨pos, hp⟩ ⟨2 * i + 1, hi⟩
        = Real.cos ((pos : ℝ) / (10000 : ℝ) ^ (((2 * i : ℕ) : ℝ) / (d : ℝ)))
    ∧ peForward B T d maxLen (peTableFn d maxLen) x
        = some ⟨T, fun b t j =>
            x b t j + peTableFn d maxLen ⟨t.val, lt_of_lt_of_le t.isLt hT⟩ j⟩ := by
  have harg : ∀ a : ℕ,
      (pos : ℝ) * Real.exp ((a : ℝ) * (-Real.log 10000 / (d : ℝ)))
        = (pos : ℝ) / (10000 : ℝ) ^ ((a : ℝ) / (d : ℝ)) := by
    intro a
    rw [Real.rpow_def_of_pos (by norm_num : (0 : ℝ) < 10000),
        eq_div_iff (Real.exp_ne_zero _), mul_assoc, ← Real.exp_add,
        show (a : ℝ) * (-Real.log 10000 / (d : ℝ))
            + Real.log 10000 * ((a : ℝ) / (d : ℝ)) = 0 from by ring,
        Real.exp_zero, mul_one]
  refine ⟨?_, ?_, ?_, ?_⟩
  · unfold peInit
    rw [if_pos ⟨hd, he⟩]
  · show peEntry d pos (2 * i) = _
    unfold peEntry
    rw [if_pos (by omega), show 2 * i / 2 = i from by omega]
    rw [harg (2 * i)]
  · show peEntry d pos (2 * i + 1) = _
    unfold peEntry
    rw [if_neg (by omega), show (2 * i + 1) / 2 = i from by omega]
    rw [harg (2 * i)]
  · unfold peForward
    rw [dif_pos (min_eq_left hT)]

/-- Witness for `pe_table_and_forward` at `d_model = 2`, `max_len = 1`,
`pos = i = 0`, `B = T = 1`, zero input. -/
theorem pe_table_and_forward_witness :
    (0 : ℕ) < 2 ∧ (2 : ℕ) % 2 = 0 ∧ (0 : ℕ) < 1 ∧ 2 * 0 + 1 < 2 ∧ (1 : ℕ) ≤ 1 ∧
      (peInit 2 1 = some (peTableFn 2 1)
       ∧ peTableFn 2 1 ⟨0, by decide⟩ ⟨2 * 0, by decide⟩
           = Real.sin (((0 : ℕ) : ℝ) / (10000 : ℝ) ^ (((2 * 0 : ℕ) : ℝ) / ((2 : ℕ) : ℝ)))
       ∧ peTableFn 2 1 ⟨0, by decide⟩ ⟨2 * 0 + 1, by decide⟩
           = Real.cos (((0 : ℕ) : ℝ) / (10000 : ℝ) ^ (((2 * 0 : ℕ) : ℝ) / ((2 : ℕ) : ℝ)))
       ∧ peForward 1 1 2 1 (peTableFn 2 1) (zero3 1 1 2)
           = some ⟨1, fun b t j => zero3 1 1 2 b t j + peTableFn 2 1 ⟨t.val, t.isLt⟩ j⟩) :=
  ⟨by decide, by decide, by decide, by decide, by decide,
   pe_table_and_forward 2 1 0 0 1 1 (zero3 1 1 2) (by decide) (by decide) (by decide)
     (by decide) (by decide)⟩
